import Mathlib

/-!
Verification of the partition-module `Config` core of Calamares
(`src/modules/partition/Config.cpp`): enum name tables, the swap-choice
resolver `getSwapChoices`, the tie-break rule `pickOne`, the config state
holder (`setInstallChoice`, `setSwapChoice`, `setConfigurationMap`) and the
global-storage publishing steps.  C++ enums become Lean inductives, the
`QVariantMap` configuration becomes a structure of optional typed fields
(one per recognized key), `QSet` becomes `Finset`, the global storage
becomes an association list behind an `Option` (none = the store is
unavailable), and Qt signal emissions become an explicit event list.
-/

namespace Calamares

/-- Modelled from the spec: `Config::InstallChoice` is declared in `Config.h`
(not part of the sources here) as the enumeration
{NoChoice, Alongside, Erase, Replace, Manual}, in that order. -/
inductive InstallChoice where
  | NoChoice
  | Alongside
  | Erase
  | Replace
  | Manual
  deriving DecidableEq, Repr, Fintype

/-- Modelled from the spec: `Config::SwapChoice` is declared in `Config.h`
(not part of the sources here) as the enumeration
{NoSwap, SmallSwap, FullSwap, ReuseSwap, SwapFile}, in that order. -/
inductive SwapChoice where
  | NoSwap
  | SmallSwap
  | FullSwap
  | ReuseSwap
  | SwapFile
  deriving DecidableEq, Repr, Fintype

/-- Ordinal value of an `InstallChoice`, as used by the C++ integer
comparisons `c < InstallChoice::NoChoice`, `c > InstallChoice::Manual`
(C++ enums without explicit initializers number from 0 in declaration
order). -/
def InstallChoice.toInt : InstallChoice → Int
  | .NoChoice => 0
  | .Alongside => 1
  | .Erase => 2
  | .Replace => 3
  | .Manual => 4

/-- Ordinal value of a `SwapChoice`. -/
def SwapChoice.toInt : SwapChoice → Int
  | .NoSwap => 0
  | .SmallSwap => 1
  | .FullSwap => 2
  | .ReuseSwap => 3
  | .SwapFile => 4

/-- The `static_cast< InstallChoice >( c )` applied in
`Config::setInstallChoice(int)` after the range check; it is only ever
applied to in-range values, the final branch is arbitrary. -/
def InstallChoice.ofInt (c : Int) : InstallChoice :=
  if c = 1 then .Alongside
  else if c = 2 then .Erase
  else if c = 3 then .Replace
  else if c = 4 then .Manual
  else .NoChoice

/-- The `static_cast< SwapChoice >( c )` applied in
`Config::setSwapChoice(int)` after the range check. -/
def SwapChoice.ofInt (c : Int) : SwapChoice :=
  if c = 1 then .SmallSwap
  else if c = 2 then .FullSwap
  else if c = 3 then .ReuseSwap
  else if c = 4 then .SwapFile
  else .NoSwap

/-- The `NamedEnumTable< InstallChoice >` of `Config::installChoiceNames()`,
in source order. -/
def installChoiceNames : List (String × InstallChoice) :=
  [ ("none", .NoChoice)
  , ("nochoice", .NoChoice)
  , ("alongside", .Alongside)
  , ("erase", .Erase)
  , ("replace", .Replace)
  , ("manual", .Manual) ]

/-- The `NamedEnumTable< SwapChoice >` of `Config::swapChoiceNames()`,
in source order. -/
def swapChoiceNames : List (String × SwapChoice) :=
  [ ("none", .NoSwap)
  , ("small", .SmallSwap)
  , ("suspend", .FullSwap)
  , ("reuse", .ReuseSwap)
  , ("file", .SwapFile) ]

/-- Modelled from the spec: `NamedEnumTable::find( name, ok )` (the table
type lives in libcalamares, outside these sources).  Lookup by name returns
the matching enum value with the success flag set; an unknown name clears
the flag and falls back to the first table entry's value.  `some v` encodes
(v, ok = true); `none` encodes the fallback with ok = false. -/
def namedEnumFind [DecidableEq α] (table : List (String × α)) (name : String) :
    Option α :=
  (table.find? (fun p => p.1 == name)).map Prod.snd

/-- Modelled from the spec: `NamedEnumTable::find( value )`, the reverse
lookup used for re-serialization.  It returns the name of the first table
entry whose value matches. -/
def namedEnumFindName [DecidableEq α] (table : List (String × α)) (v : α) :
    String :=
  ((table.find? (fun p => p.2 == v)).map Prod.fst).getD ""

/-- `Config::SwapChoiceSet` is `QSet< SwapChoice >`. -/
abbrev SwapChoiceSet := Finset SwapChoice

/-- Declaration order of the `SwapChoice` enumerators. -/
def swapChoiceOrder : List SwapChoice :=
  [.NoSwap, .SmallSwap, .FullSwap, .ReuseSwap, .SwapFile]

/-- Models `*( s.begin() )` on a `QSet< SwapChoice >`.  QSet iteration order
is unspecified; we fix the declaration order of the enum as the iteration
order (no verified claim depends on which member this picks when the set
has more than one). -/
def setBegin (s : SwapChoiceSet) : SwapChoice :=
  (swapChoiceOrder.find? (fun c => decide (c ∈ s))).getD .NoSwap

/-- `pickOne` from Config.cpp: the tie-break rule on swap-choice sets. -/
def pickOne (s : SwapChoiceSet) : SwapChoice :=
  if s.card = 0 then
    .NoSwap
  else if s.card = 1 then
    setBegin s
  else if SwapChoice.NoSwap ∈ s then
    .NoSwap
  else
    -- Here, count > 1 but NoSwap is not a member.
    setBegin s

/-- Modelled from the spec: `CalamaresUtils::getBool( map, key, default )`
(libcalamares, outside these sources) reads a boolean setting, falling back
to the default when the key is absent.  The optional field is the key's
value when present. -/
def getBool (field : Option Bool) (d : Bool) : Bool :=
  field.getD d

/-- Modelled from the spec: `CalamaresUtils::getString( map, key )`, empty
string when the key is absent. -/
def getString (field : Option String) : String :=
  field.getD ""

/-- Modelled from the spec: `CalamaresUtils::getString( map, key, default )`
with an explicit default. -/
def getStringD (field : Option String) (d : String) : String :=
  field.getD d

/-- The three keys of the raw configuration map that `getSwapChoices`
reads.  A `some` field means the `QVariantMap` contains that key, carrying
its (converted) value. -/
structure SwapConfig where
  userSwapChoices : Option (List String)
  ensureSuspendToDisk : Option Bool
  neverCreateSwap : Option Bool
  deriving DecidableEq, Repr

/-- The parsing loop of `getSwapChoices` over the `userSwapChoices` list:
each recognized entry is inserted into the set, unrecognized entries are
skipped (after a warning). -/
def parseUserSwapChoices (l : List String) : SwapChoiceSet :=
  l.foldl
    (fun acc item =>
      match namedEnumFind swapChoiceNames item with
      | some v => insert v acc
      | none => acc)
    ∅

/-- `getSwapChoices` from Config.cpp: resolve the legacy booleans and the
modern `userSwapChoices` list into the available swap-choice set.  The
diagnostics (conflict and deprecation warnings) are not modelled; the
derived `ensureSuspendToDisk` / `neverCreateSwap` reassignments inside the
`userSwapChoices` branch are dead after it and are dropped. -/
def getSwapChoices (configurationMap : SwapConfig) : SwapChoiceSet :=
  let ensureSuspendToDisk := getBool configurationMap.ensureSuspendToDisk true
  let neverCreateSwap := getBool configurationMap.neverCreateSwap false
  let choices : SwapChoiceSet :=
    match configurationMap.userSwapChoices with
    | some l =>
      let parsed := parseUserSwapChoices l
      if parsed = ∅ then
        {SwapChoice.FullSwap}
      else
        parsed
    | none =>
      -- Convert the legacy settings into a single setting for now.
      if neverCreateSwap then
        {SwapChoice.NoSwap}
      else if ensureSuspendToDisk then
        {SwapChoice.FullSwap}
      else
        {SwapChoice.SmallSwap}
  -- COMPLAIN_UNSUPPORTED( Config::SwapChoice::ReuseSwap )
  choices.erase SwapChoice.ReuseSwap

/-- Values stored in the global storage by this module: strings, string
lists, the nested {install, swap} map written under `partitionChoices`
(modelled as its two canonical names), and the real-valued
`requiredStorageGiB` (doubles modelled as rationals; the module only
defaults, compares and copies them). -/
inductive GSValue where
  | str : String → GSValue
  | strList : List String → GSValue
  | choicePair : String → String → GSValue
  | real : ℚ → GSValue
  deriving DecidableEq, Repr

/-- `Calamares::GlobalStorage`, modelled as an association list from keys
to values, most recent insert first. -/
def GlobalStorage := List (String × GSValue)

instance : DecidableEq GlobalStorage :=
  inferInstanceAs (DecidableEq (List (String × GSValue)))

/-- `GlobalStorage::insert`: whole-value insert with overwrite semantics. -/
def gsInsert (g : GlobalStorage) (k : String) (v : GSValue) : GlobalStorage :=
  (k, v) :: g.filter (fun p => p.1 ≠ k)

/-- `GlobalStorage::contains`. -/
def gsContains (g : GlobalStorage) (k : String) : Bool :=
  g.any (fun p => p.1 == k)

/-- Lookup in the modelled global storage (value under a key). -/
def gsLookup (g : GlobalStorage) (k : String) : Option GSValue :=
  (g.find? (fun p => p.1 == k)).map Prod.snd

/-- Qt signals emitted by `Config`, recorded as explicit events. -/
inductive Event where
  | installChoiceChanged : InstallChoice → Event
  | swapChoiceChanged : SwapChoice → Event
  | eraseModeFilesystemChanged : String → Event
  deriving DecidableEq, Repr

/-- The member fields of `Config` (declared in `Config.h`, mutated in
Config.cpp) that the verified operations touch. -/
structure ConfigState where
  installChoice : InstallChoice
  swapChoice : SwapChoice
  requiredStorageGiB : ℚ
  swapChoices : SwapChoiceSet
  initialInstallChoice : InstallChoice
  initialSwapChoice : SwapChoice
  allowManualPartitioning : Bool
  eraseFsTypes : List String
  eraseFsTypeChoice : String
  requiredPartitionTableType : List String
  deriving DecidableEq

/-- The free function `updateGlobalStorage` of Config.cpp: if the job
queue / global storage is available, publish the canonical names of the
current pair under `partitionChoices`; otherwise do nothing.  The store is
`none` when `Calamares::JobQueue::instance()` (or its storage) is null. -/
def updateGlobalStorage (installChoice : InstallChoice) (swapChoice : SwapChoice)
    (gs : Option GlobalStorage) : Option GlobalStorage :=
  match gs with
  | some g =>
    some (gsInsert g "partitionChoices"
      (GSValue.choicePair
        (namedEnumFindName installChoiceNames installChoice)
        (namedEnumFindName swapChoiceNames swapChoice)))
  | none => none

/-- `Config::setInstallChoice( InstallChoice )`: no-op when the value is
unchanged; otherwise update the field, emit `installChoiceChanged` and
publish via `updateGlobalStorage`.  Returns the new state, the new store
and the emitted events. -/
def setInstallChoiceEnum (st : ConfigState) (gs : Option GlobalStorage)
    (c : InstallChoice) : ConfigState × Option GlobalStorage × List Event :=
  if c ≠ st.installChoice then
    ({ st with installChoice := c },
     updateGlobalStorage c st.swapChoice gs,
     [Event.installChoiceChanged c])
  else
    (st, gs, [])

/-- `Config::setSwapChoice( SwapChoice )`. -/
def setSwapChoiceEnum (st : ConfigState) (gs : Option GlobalStorage)
    (c : SwapChoice) : ConfigState × Option GlobalStorage × List Event :=
  if c ≠ st.swapChoice then
    ({ st with swapChoice := c },
     updateGlobalStorage st.installChoice c gs,
     [Event.swapChoiceChanged c])
  else
    (st, gs, [])

/-- `Config::setInstallChoice( int )`: clamp out-of-range raw values to
`NoChoice` (after a warning), then delegate to the enum overload. -/
def setInstallChoiceInt (st : ConfigState) (gs : Option GlobalStorage)
    (c : Int) : ConfigState × Option GlobalStorage × List Event :=
  let c :=
    if c < InstallChoice.NoChoice.toInt ∨ InstallChoice.Manual.toInt < c then
      InstallChoice.NoChoice.toInt
    else
      c
  setInstallChoiceEnum st gs (InstallChoice.ofInt c)

/-- `Config::setSwapChoice( int )`: clamp out-of-range raw values to
`NoSwap` (after a warning), then delegate to the enum overload. -/
def setSwapChoiceInt (st : ConfigState) (gs : Option GlobalStorage)
    (c : Int) : ConfigState × Option GlobalStorage × List Event :=
  let c :=
    if c < SwapChoice.NoSwap.toInt ∨ SwapChoice.SwapFile.toInt < c then
      SwapChoice.NoSwap.toInt
    else
      c
  setSwapChoiceEnum st gs (SwapChoice.ofInt c)

/-- The recognized keys of the raw configuration map handed to
`Config::setConfigurationMap`, with their converted values; a `some` field
means the `QVariantMap` contains that key. -/
structure ConfigurationMap where
  requiredStorage : Option ℚ
  userSwapChoices : Option (List String)
  ensureSuspendToDisk : Option Bool
  neverCreateSwap : Option Bool
  initialPartitioningChoice : Option String
  initialSwapChoice : Option String
  allowManualPartitioning : Option Bool
  availableFileSystemTypes : Option (List String)
  requiredPartitionTableType : Option (List String)
  efiSystemPartition : Option String
  efiSystemPartitionSize : Option String
  efiSystemPartitionName : Option String
  deriving DecidableEq, Repr

/-- Modelled from the spec: `CalamaresUtils::getDouble( map, key, default )`
(libcalamares), falling back to the default when the key is absent. -/
def getDouble (field : Option ℚ) (d : ℚ) : ℚ :=
  field.getD d

/-- Modelled from the spec: `CalamaresUtils::getStringList( map, key )`,
empty when the key is absent. -/
def getStringList (field : Option (List String)) : List String :=
  field.getD []

/-- `fillGSConfigurationEFI` from Config.cpp.  `efi` is the result of the
external firmware detector `PartUtils::isEfiSystem()`. -/
def fillGSConfigurationEFI (g : GlobalStorage) (efi : Bool)
    (configurationMap : ConfigurationMap) : GlobalStorage :=
  let firmwareType := if efi then "efi" else "bios"
  let g := gsInsert g "firmwareType" (GSValue.str firmwareType)
  let g := gsInsert g "efiSystemPartition"
    (GSValue.str (getStringD configurationMap.efiSystemPartition "/boot/efi"))
  let g :=
    match configurationMap.efiSystemPartitionSize with
    | some s => gsInsert g "efiSystemPartitionSize" (GSValue.str s)
    | none => g
  match configurationMap.efiSystemPartitionName with
  | some s => gsInsert g "efiSystemPartitionName" (GSValue.str s)
  | none => g

/-- `Config::setConfigurationMap`.  The result is `none` exactly when the
final, unconditional `Calamares::JobQueue::instance()->globalStorage()`
dereference hits an unavailable store (the C++ would crash there); the
earlier steps tolerate an unavailable store because the setters go through
the null-checked `updateGlobalStorage`. -/
def setConfigurationMap (st : ConfigState) (gs : Option GlobalStorage)
    (efi : Bool) (m : ConfigurationMap) :
    Option (ConfigState × Option GlobalStorage × List Event) :=
  let st := { st with
    requiredStorageGiB := getDouble m.requiredStorage (-1),
    swapChoices :=
      getSwapChoices ⟨m.userSwapChoices, m.ensureSuspendToDisk, m.neverCreateSwap⟩ }
  -- nameFound is ignored: a miss falls back to the first entry in the table.
  let initialInstall :=
    (namedEnumFind installChoiceNames (getString m.initialPartitioningChoice)).getD
      InstallChoice.NoChoice
  let st := { st with initialInstallChoice := initialInstall }
  let (st, gs, ev₁) := setInstallChoiceEnum st gs initialInstall
  let initialSwap :=
    (namedEnumFind swapChoiceNames (getString m.initialSwapChoice)).getD
      SwapChoice.NoSwap
  let initialSwap :=
    if initialSwap ∈ st.swapChoices then initialSwap else pickOne st.swapChoices
  let st := { st with initialSwapChoice := initialSwap }
  let (st, gs, ev₂) := setSwapChoiceEnum st gs initialSwap
  let st := { st with
    allowManualPartitioning := getBool m.allowManualPartitioning true }
  let (st, ev₃) :=
    match m.availableFileSystemTypes with
    | some fsTypes =>
      let st := { st with eraseFsTypes := fsTypes }
      if fsTypes.isEmpty then
        (st, [])
      else
        ({ st with eraseFsTypeChoice := fsTypes.headD "" },
         [Event.eraseModeFilesystemChanged (fsTypes.headD "")])
    | none => (st, [])
  match gs with
  | none => none  -- `JobQueue::instance()->globalStorage()` dereferences null
  | some g =>
    let st := { st with
      requiredPartitionTableType := getStringList m.requiredPartitionTableType }
    let g := gsInsert g "requiredPartitionTableType"
      (GSValue.strList st.requiredPartitionTableType)
    let g := fillGSConfigurationEFI g efi m
    some (st, some g, ev₁ ++ ev₂ ++ ev₃)

/-- `Config::fillGSSecondaryConfiguration`: publish `requiredStorageGiB`
only when it was configured (non-negative), the store is available and the
store does not already contain the key. -/
def fillGSSecondaryConfiguration (st : ConfigState) (gs : Option GlobalStorage) :
    Option GlobalStorage :=
  match gs with
  | none => none
  | some g =>
    if 0 ≤ st.requiredStorageGiB ∧ ¬ gsContains g "requiredStorageGiB" then
      some (gsInsert g "requiredStorageGiB" (GSValue.real st.requiredStorageGiB))
    else
      some g

/-- A concrete configuration state, used to instantiate the verified
properties on explicit inputs. -/
def sampleState : ConfigState where
  installChoice := .NoChoice
  swapChoice := .NoSwap
  requiredStorageGiB := -1
  swapChoices := ∅
  initialInstallChoice := .NoChoice
  initialSwapChoice := .NoSwap
  allowManualPartitioning := true
  eraseFsTypes := []
  eraseFsTypeChoice := ""
  requiredPartitionTableType := []

/-- The configuration of the spec's mismatch scenario: `initialSwapChoice`
is `"file"` while `userSwapChoices` only allows `"suspend"`. -/
def swapMismatchMap : ConfigurationMap where
  requiredStorage := none
  userSwapChoices := some ["suspend"]
  ensureSuspendToDisk := none
  neverCreateSwap := none
  initialPartitioningChoice := none
  initialSwapChoice := some "file"
  allowManualPartitioning := none
  availableFileSystemTypes := none
  requiredPartitionTableType := none
  efiSystemPartition := none
  efiSystemPartitionSize := none
  efiSystemPartitionName := none

/-! Helper lemmas. -/

/-- The parsing loop accumulates exactly the recognized entries. -/
lemma foldl_insert_recognized (l : List String) (acc : SwapChoiceSet) :
    l.foldl
      (fun acc item =>
        match namedEnumFind swapChoiceNames item with
        | some v => insert v acc
        | none => acc)
      acc
      = acc ∪ (l.filterMap (namedEnumFind swapChoiceNames)).toFinset := by
  induction l generalizing acc with
  | nil => simp
  | cons a t ih =>
    cases hf : namedEnumFind swapChoiceNames a with
    | none =>
      simp only [List.foldl_cons, List.filterMap_cons, hf, ih]
    | some v =>
      simp only [List.foldl_cons, List.filterMap_cons, hf, ih]
      ext x
      simp only [Finset.mem_union, Finset.mem_insert, List.mem_toFinset,
        List.mem_cons]
      tauto

/-- `parseUserSwapChoices` keeps exactly the values of recognized names. -/
lemma parseUserSwapChoices_eq (l : List String) :
    parseUserSwapChoices l
      = (l.filterMap (namedEnumFind swapChoiceNames)).toFinset := by
  unfold parseUserSwapChoices
  rw [foldl_insert_recognized]
  simp

/-- Unfolding of `getSwapChoices` into its two schema branches followed by
the `ReuseSwap` strip. -/
lemma getSwapChoices_eq (cfg : SwapConfig) :
    getSwapChoices cfg
      = (match cfg.userSwapChoices with
         | some l =>
           if parseUserSwapChoices l = ∅ then
             ({SwapChoice.FullSwap} : SwapChoiceSet)
           else
             parseUserSwapChoices l
         | none =>
           if getBool cfg.neverCreateSwap false then
             ({SwapChoice.NoSwap} : SwapChoiceSet)
           else if getBool cfg.ensureSuspendToDisk true then
             ({SwapChoice.FullSwap} : SwapChoiceSet)
           else
             ({SwapChoice.SmallSwap} : SwapChoiceSet)).erase
          SwapChoice.ReuseSwap := rfl

/-- Erasing one element from a non-empty set that is not the singleton of
that element leaves the set non-empty. -/
lemma erase_ne_empty (s : SwapChoiceSet) (a : SwapChoice)
    (h₁ : s ≠ ∅) (h₂ : s ≠ {a}) : s.erase a ≠ ∅ := by
  intro he
  rcases (Finset.erase_eq_empty_iff s a).mp he with h | h
  · exact h₁ h
  · exact h₂ h

/-! Claim theorems. -/

/-- Claim C1, counterexample: with `userSwapChoices: [reuse]` the parsed set
is the non-empty `{ReuseSwap}`, so the empty-set fallback does not fire, and
the subsequent `ReuseSwap` strip empties it — `getSwapChoices` returns the
empty set, contradicting "the resolved SwapChoiceSet is never empty". -/
theorem getSwapChoices_reuseOnly_empty :
    getSwapChoices ⟨some ["reuse"], none, none⟩ = ∅ := by decide

/-- Claim C1 (amended): for every raw configuration, the resolved set never
contains `ReuseSwap`, and it is non-empty unless `userSwapChoices` is
present and its recognized entries parse to exactly `{ReuseSwap}` (in which
case the strip empties the set after the emptiness fallback has already
been decided). -/
theorem getSwapChoices_invariant :
    ∀ cfg : SwapConfig,
      SwapChoice.ReuseSwap ∉ getSwapChoices cfg ∧
      ((∀ l, cfg.userSwapChoices = some l →
          parseUserSwapChoices l ≠ {SwapChoice.ReuseSwap}) →
        getSwapChoices cfg ≠ ∅) := by
  intro cfg
  constructor
  · rw [getSwapChoices_eq]
    exact Finset.not_mem_erase _ _
  · intro hnr
    obtain ⟨u, e, n⟩ := cfg
    rw [getSwapChoices_eq]
    cases u with
    | none =>
      by_cases hn : getBool n false <;> by_cases he : getBool e true <;>
        simp only [hn, he, if_true, if_false] <;> decide
    | some l =>
      dsimp only
      by_cases hp : parseUserSwapChoices l = ∅
      · rw [if_pos hp]; decide
      · rw [if_neg hp]
        exact erase_ne_empty _ _ hp (hnr l rfl)

/-- Claim C1, witness: the amended invariant applied to the configuration
`userSwapChoices: [suspend]`. -/
theorem getSwapChoices_invariant_witness :
    SwapChoice.ReuseSwap ∉ getSwapChoices ⟨some ["suspend"], none, none⟩ ∧
      getSwapChoices ⟨some ["suspend"], none, none⟩ ≠ ∅ := by
  have h := getSwapChoices_invariant ⟨some ["suspend"], none, none⟩
  exact ⟨h.1, h.2 (fun l hl => by cases hl; decide)⟩

/-- Claim C2: without `userSwapChoices`, the resolver returns the single
legacy outcome, in priority order: `{NoSwap}` if `neverCreateSwap` (default
false), else `{FullSwap}` if `ensureSuspendToDisk` (default true), else
`{SmallSwap}`; exactly one of the three branches applies. -/
theorem getSwapChoices_legacy :
    ∀ e n : Option Bool,
      getSwapChoices ⟨none, e, n⟩
        = (if getBool n false then
             ({SwapChoice.NoSwap} : SwapChoiceSet)
           else if getBool e true then
             ({SwapChoice.FullSwap} : SwapChoiceSet)
           else
             ({SwapChoice.SmallSwap} : SwapChoiceSet)) := by decide

/-- Claim C3: with `userSwapChoices` present, the resolver keeps exactly the
values of the entries recognized by the swap-choice name table (unrecognized
entries are dropped), substitutes `{FullSwap}` when nothing parsed, and then
strips `ReuseSwap`; in particular `[suspend, reuse]` resolves to exactly
`{FullSwap}`. -/
theorem getSwapChoices_userChoices :
    (∀ (e n : Option Bool) (l : List String),
      getSwapChoices ⟨some l, e, n⟩
        = (if (l.filterMap (namedEnumFind swapChoiceNames)).toFinset = ∅ then
             ({SwapChoice.FullSwap} : SwapChoiceSet)
           else
             (l.filterMap (namedEnumFind swapChoiceNames)).toFinset).erase
            SwapChoice.ReuseSwap) ∧
    (∀ e n : Option Bool,
      getSwapChoices ⟨some ["suspend", "reuse"], e, n⟩
        = {SwapChoice.FullSwap}) := by
  constructor
  · intro e n l
    rw [getSwapChoices_eq]
    dsimp only
    rw [parseUserSwapChoices_eq]
  · decide

/-- Claim C4: `pickOne` is total and returns the unique member of a
singleton, `NoSwap` whenever `NoSwap` is a member, and `NoSwap` on the empty
set; in particular `pickOne {NoSwap, SmallSwap} = NoSwap`,
`pickOne {SmallSwap} = SmallSwap` and `pickOne ∅ = NoSwap`. -/
theorem pickOne_spec :
    (∀ c : SwapChoice, pickOne {c} = c) ∧
    (∀ s : SwapChoiceSet, SwapChoice.NoSwap ∈ s → pickOne s = SwapChoice.NoSwap) ∧
    pickOne ∅ = SwapChoice.NoSwap ∧
    pickOne {SwapChoice.NoSwap, SwapChoice.SmallSwap} = SwapChoice.NoSwap ∧
    pickOne {SwapChoice.SmallSwap} = SwapChoice.SmallSwap := by decide

/-- Claim C4, witness: the `NoSwap`-preference clause applied to the
concrete set `{NoSwap, SmallSwap}`. -/
theorem pickOne_spec_witness :
    SwapChoice.NoSwap ∈ ({SwapChoice.NoSwap, SwapChoice.SmallSwap} : SwapChoiceSet) ∧
      pickOne {SwapChoice.NoSwap, SwapChoice.SmallSwap} = SwapChoice.NoSwap :=
  ⟨by decide, pickOne_spec.2.1 _ (by decide)⟩

/-- Claim C8: for every enum value, serializing through the reverse lookup
(first table entry matching the value) and parsing the resulting canonical
name returns the original value, for both name tables. -/
theorem nameTable_roundTrip :
    (∀ v : InstallChoice,
      namedEnumFind installChoiceNames (namedEnumFindName installChoiceNames v)
        = some v) ∧
    (∀ v : SwapChoice,
      namedEnumFind swapChoiceNames (namedEnumFindName swapChoiceNames v)
        = some v) := by decide

/-- Lookup after insert finds the inserted value. -/
lemma gsLookup_gsInsert (g : GlobalStorage) (k : String) (v : GSValue) :
    gsLookup (gsInsert g k v) k = some v := by
  simp [gsLookup, gsInsert]

/-- Containment after insert. -/
lemma gsContains_gsInsert (g : GlobalStorage) (k : String) (v : GSValue) :
    gsContains (gsInsert g k v) k = true := by
  simp [gsContains, gsInsert]

/-- The two possible outcomes of `setInstallChoice` on an unavailable
store: the store stays unavailable. -/
lemma setInstallChoiceEnum_none_cases (st : ConfigState) (c : InstallChoice) :
    setInstallChoiceEnum st none c
        = ({ st with installChoice := c }, none, [Event.installChoiceChanged c]) ∨
      setInstallChoiceEnum st none c = (st, none, []) := by
  unfold setInstallChoiceEnum
  split
  · left; rfl
  · right; rfl

/-- The two possible outcomes of `setSwapChoice` on an unavailable store. -/
lemma setSwapChoiceEnum_none_cases (st : ConfigState) (c : SwapChoice) :
    setSwapChoiceEnum st none c
        = ({ st with swapChoice := c }, none, [Event.swapChoiceChanged c]) ∨
      setSwapChoiceEnum st none c = (st, none, []) := by
  unfold setSwapChoiceEnum
  split
  · left; rfl
  · right; rfl

/-- The two possible outcomes of `setInstallChoice` on an available store;
in the no-op case the requested value equals the current one. -/
lemma setInstallChoiceEnum_some_cases (st : ConfigState) (g : GlobalStorage)
    (c : InstallChoice) :
    setInstallChoiceEnum st (some g) c
        = ({ st with installChoice := c },
           some (gsInsert g "partitionChoices"
             (GSValue.choicePair (namedEnumFindName installChoiceNames c)
               (namedEnumFindName swapChoiceNames st.swapChoice))),
           [Event.installChoiceChanged c]) ∨
      (setInstallChoiceEnum st (some g) c = (st, some g, []) ∧
        c = st.installChoice) := by
  unfold setInstallChoiceEnum
  split
  · left; rfl
  · next hc => exact Or.inr ⟨rfl, not_not.mp hc⟩

/-- The two possible outcomes of `setSwapChoice` on an available store; in
the no-op case the requested value equals the current one. -/
lemma setSwapChoiceEnum_some_cases (st : ConfigState) (g : GlobalStorage)
    (c : SwapChoice) :
    setSwapChoiceEnum st (some g) c
        = ({ st with swapChoice := c },
           some (gsInsert g "partitionChoices"
             (GSValue.choicePair
               (namedEnumFindName installChoiceNames st.installChoice)
               (namedEnumFindName swapChoiceNames c))),
           [Event.swapChoiceChanged c]) ∨
      (setSwapChoiceEnum st (some g) c = (st, some g, []) ∧
        c = st.swapChoice) := by
  unfold setSwapChoiceEnum
  split
  · left; rfl
  · next hc => exact Or.inr ⟨rfl, not_not.mp hc⟩

/-- Claim C5: setting a choice to its current value is a strict no-op (same
state, same store, no events); a genuinely different value updates exactly
that field, emits exactly the matching change signal, and publishes the new
(install, swap) canonical-name pair under `partitionChoices`. -/
theorem setChoice_frame :
    (∀ (st : ConfigState) (gs : Option GlobalStorage),
      setInstallChoiceEnum st gs st.installChoice = (st, gs, [])) ∧
    (∀ (st : ConfigState) (gs : Option GlobalStorage),
      setSwapChoiceEnum st gs st.swapChoice = (st, gs, [])) ∧
    (∀ (st : ConfigState) (g : GlobalStorage) (c : InstallChoice),
      c ≠ st.installChoice →
      setInstallChoiceEnum st (some g) c
          = ({ st with installChoice := c },
             some (gsInsert g "partitionChoices"
               (GSValue.choicePair (namedEnumFindName installChoiceNames c)
                 (namedEnumFindName swapChoiceNames st.swapChoice))),
             [Event.installChoiceChanged c]) ∧
        gsLookup (gsInsert g "partitionChoices"
            (GSValue.choicePair (namedEnumFindName installChoiceNames c)
              (namedEnumFindName swapChoiceNames st.swapChoice)))
            "partitionChoices"
          = some (GSValue.choicePair (namedEnumFindName installChoiceNames c)
              (namedEnumFindName swapChoiceNames st.swapChoice))) ∧
    (∀ (st : ConfigState) (g : GlobalStorage) (c : SwapChoice),
      c ≠ st.swapChoice →
      setSwapChoiceEnum st (some g) c
          = ({ st with swapChoice := c },
             some (gsInsert g "partitionChoices"
               (GSValue.choicePair
                 (namedEnumFindName installChoiceNames st.installChoice)
                 (namedEnumFindName swapChoiceNames c))),
             [Event.swapChoiceChanged c]) ∧
        gsLookup (gsInsert g "partitionChoices"
            (GSValue.choicePair
              (namedEnumFindName installChoiceNames st.installChoice)
              (namedEnumFindName swapChoiceNames c)))
            "partitionChoices"
          = some (GSValue.choicePair
              (namedEnumFindName installChoiceNames st.installChoice)
              (namedEnumFindName swapChoiceNames c))) := by
  refine ⟨?_, ?_, ?_, ?_⟩
  · intro st gs
    simp [setInstallChoiceEnum]
  · intro st gs
    simp [setSwapChoiceEnum]
  · intro st g c hc
    refine ⟨?_, gsLookup_gsInsert _ _ _⟩
    unfold setInstallChoiceEnum
    rw [if_pos hc]
    rfl
  · intro st g c hc
    refine ⟨?_, gsLookup_gsInsert _ _ _⟩
    unfold setSwapChoiceEnum
    rw [if_pos hc]
    rfl

/-- Claim C5, witness: changing the install choice of the sample state from
`NoChoice` to `Alongside` over an empty store. -/
theorem setChoice_frame_witness :
    InstallChoice.Alongside ≠ sampleState.installChoice ∧
      (setInstallChoiceEnum sampleState (some []) InstallChoice.Alongside
          = ({ sampleState with installChoice := InstallChoice.Alongside },
             some (gsInsert [] "partitionChoices"
               (GSValue.choicePair
                 (namedEnumFindName installChoiceNames InstallChoice.Alongside)
                 (namedEnumFindName swapChoiceNames sampleState.swapChoice))),
             [Event.installChoiceChanged InstallChoice.Alongside]) ∧
        gsLookup (gsInsert [] "partitionChoices"
            (GSValue.choicePair
              (namedEnumFindName installChoiceNames InstallChoice.Alongside)
              (namedEnumFindName swapChoiceNames sampleState.swapChoice)))
            "partitionChoices"
          = some (GSValue.choicePair
              (namedEnumFindName installChoiceNames InstallChoice.Alongside)
              (namedEnumFindName swapChoiceNames sampleState.swapChoice))) :=
  ⟨by decide, setChoice_frame.2.2.1 sampleState [] InstallChoice.Alongside (by decide)⟩

/-- Claim C6: out-of-range raw integers are clamped — `setInstallChoice(int)`
outside [NoChoice, Manual] behaves exactly as `setInstallChoice(NoChoice)`,
`setSwapChoice(int)` outside [NoSwap, SwapFile] as `setSwapChoice(NoSwap)`,
and the stored choice always has an in-range ordinal. -/
theorem setChoice_int_range :
    (∀ (st : ConfigState) (gs : Option GlobalStorage) (c : Int),
      (c < InstallChoice.NoChoice.toInt ∨ InstallChoice.Manual.toInt < c) →
      setInstallChoiceInt st gs c
        = setInstallChoiceEnum st gs InstallChoice.NoChoice) ∧
    (∀ (st : ConfigState) (gs : Option GlobalStorage) (c : Int),
      (c < SwapChoice.NoSwap.toInt ∨ SwapChoice.SwapFile.toInt < c) →
      setSwapChoiceInt st gs c = setSwapChoiceEnum st gs SwapChoice.NoSwap) ∧
    (∀ (st : ConfigState) (gs : Option GlobalStorage) (c : Int),
      InstallChoice.NoChoice.toInt
          ≤ (setInstallChoiceInt st gs c).1.installChoice.toInt ∧
      (setInstallChoiceInt st gs c).1.installChoice.toInt
          ≤ InstallChoice.Manual.toInt ∧
      SwapChoice.NoSwap.toInt ≤ (setSwapChoiceInt st gs c).1.swapChoice.toInt ∧
      (setSwapChoiceInt st gs c).1.swapChoice.toInt
          ≤ SwapChoice.SwapFile.toInt) := by
  refine ⟨?_, ?_, ?_⟩
  · intro st gs c h
    simp only [setInstallChoiceInt]
    rw [if_pos h]
    rfl
  · intro st gs c h
    simp only [setSwapChoiceInt]
    rw [if_pos h]
    rfl
  · intro st gs c
    have hI : ∀ v : InstallChoice,
        InstallChoice.NoChoice.toInt ≤ v.toInt ∧
          v.toInt ≤ InstallChoice.Manual.toInt := by decide
    have hS : ∀ v : SwapChoice,
        SwapChoice.NoSwap.toInt ≤ v.toInt ∧
          v.toInt ≤ SwapChoice.SwapFile.toInt := by decide
    exact ⟨(hI _).1, (hI _).2, (hS _).1, (hS _).2⟩

/-- Claim C6, witness: the raw value 99 is treated as `NoChoice`. -/
theorem setChoice_int_range_witness :
    ((99 : Int) < InstallChoice.NoChoice.toInt
        ∨ InstallChoice.Manual.toInt < (99 : Int)) ∧
      setInstallChoiceInt sampleState none 99
        = setInstallChoiceEnum sampleState none InstallChoice.NoChoice :=
  ⟨by decide, setChoice_int_range.1 sampleState none 99 (by decide)⟩

/-- Claim C9: `fillGSSecondaryConfiguration` writes `requiredStorageGiB`
only when the threshold is configured (non-negative) and the store lacks
the key; it never overwrites an existing value, and it is idempotent. -/
theorem fillGSSecondary_spec :
    (∀ (st : ConfigState) (g : GlobalStorage),
      gsContains g "requiredStorageGiB" = true →
      fillGSSecondaryConfiguration st (some g) = some g) ∧
    (∀ (st : ConfigState) (g : GlobalStorage),
      st.requiredStorageGiB < 0 →
      fillGSSecondaryConfiguration st (some g) = some g) ∧
    (∀ (st : ConfigState) (g : GlobalStorage),
      0 ≤ st.requiredStorageGiB → gsContains g "requiredStorageGiB" = false →
      fillGSSecondaryConfiguration st (some g)
        = some (gsInsert g "requiredStorageGiB"
            (GSValue.real st.requiredStorageGiB))) ∧
    (∀ (st : ConfigState) (gs : Option GlobalStorage),
      fillGSSecondaryConfiguration st (fillGSSecondaryConfiguration st gs)
        = fillGSSecondaryConfiguration st gs) := by
  refine ⟨?_, ?_, ?_, ?_⟩
  · intro st g h
    simp [fillGSSecondaryConfiguration, h]
  · intro st g h
    simp [fillGSSecondaryConfiguration, not_le.mpr h]
  · intro st g h₁ h₂
    simp [fillGSSecondaryConfiguration, h₁, h₂]
  · intro st gs
    cases gs with
    | none => rfl
    | some g =>
      by_cases hc : 0 ≤ st.requiredStorageGiB
          ∧ ¬ gsContains g "requiredStorageGiB"
      · simp only [fillGSSecondaryConfiguration, if_pos hc]
        rw [if_neg]
        intro hcc
        exact hcc.2 (gsContains_gsInsert g _ _)
      · simp only [fillGSSecondaryConfiguration, if_neg hc]

/-- Claim C9, witness: a configured threshold of 2 GiB is published into an
empty store. -/
theorem fillGSSecondary_spec_witness :
    (0 : ℚ) ≤ (ConfigState.requiredStorageGiB
        { sampleState with requiredStorageGiB := 2 }) ∧
      gsContains [] "requiredStorageGiB" = false ∧
      fillGSSecondaryConfiguration { sampleState with requiredStorageGiB := 2 }
          (some [])
        = some (gsInsert [] "requiredStorageGiB"
            (GSValue.real (ConfigState.requiredStorageGiB
              { sampleState with requiredStorageGiB := 2 }))) :=
  ⟨by norm_num [sampleState], by decide,
    fillGSSecondary_spec.2.2.1 _ [] (by norm_num [sampleState]) (by decide)⟩

set_option maxHeartbeats 1600000 in
/-- Claim C7: during `setConfigurationMap`, when the `SwapChoice` parsed
from `initialSwapChoice` is not a member of the resolved swap-choice set,
the initial swap choice recorded and applied is `pickOne` of that set; with
`initialSwapChoice: file` and `userSwapChoices: [suspend]` the applied
choice is `FullSwap`. -/
theorem setConfigurationMap_initialSwap_fallback :
    (∀ (st : ConfigState) (g : GlobalStorage) (efi : Bool)
        (m : ConfigurationMap),
      (namedEnumFind swapChoiceNames (getString m.initialSwapChoice)).getD
          SwapChoice.NoSwap
          ∉ getSwapChoices
              ⟨m.userSwapChoices, m.ensureSuspendToDisk, m.neverCreateSwap⟩ →
      ∃ st₂ gs₂ ev,
        setConfigurationMap st (some g) efi m = some (st₂, gs₂, ev) ∧
        st₂.initialSwapChoice
          = pickOne (getSwapChoices
              ⟨m.userSwapChoices, m.ensureSuspendToDisk, m.neverCreateSwap⟩) ∧
        st₂.swapChoice
          = pickOne (getSwapChoices
              ⟨m.userSwapChoices, m.ensureSuspendToDisk, m.neverCreateSwap⟩)) ∧
    (setConfigurationMap sampleState (some []) false swapMismatchMap).map
        (fun r => r.1.swapChoice)
      = some SwapChoice.FullSwap := by
  constructor
  · intro st g efi m h
    unfold setConfigurationMap
    dsimp only
    obtain h₁ | ⟨h₁, -⟩ := setInstallChoiceEnum_some_cases _ _ _ <;> rw [h₁] <;>
        dsimp only <;>
      rw [if_neg h]
    all_goals obtain h₂ | ⟨h₂, h₂e⟩ := setSwapChoiceEnum_some_cases _ _ _
    all_goals rw [h₂]
    all_goals try dsimp only
    all_goals rcases m.availableFileSystemTypes with _ | fs
    all_goals try dsimp only
    all_goals try (by_cases hfs : fs.isEmpty = true <;>
      first
        | rw [if_pos hfs]
        | rw [if_neg hfs])
    all_goals try dsimp only
    all_goals refine ⟨_, _, _, rfl, ?_, ?_⟩
    all_goals first
      | rfl
      | exact h₂e.symm
  · decide

/-- Claim C7, witness: the general fallback clause instantiated on the
mismatch scenario (`initialSwapChoice: file`, `userSwapChoices: [suspend]`,
whose resolved set is `{FullSwap}`). -/
theorem setConfigurationMap_initialSwap_fallback_witness :
    ((namedEnumFind swapChoiceNames
          (getString swapMismatchMap.initialSwapChoice)).getD SwapChoice.NoSwap
        ∉ getSwapChoices
            ⟨swapMismatchMap.userSwapChoices, swapMismatchMap.ensureSuspendToDisk,
              swapMismatchMap.neverCreateSwap⟩) ∧
      (∃ st₂ gs₂ ev,
        setConfigurationMap sampleState (some []) false swapMismatchMap
            = some (st₂, gs₂, ev) ∧
        st₂.initialSwapChoice
          = pickOne (getSwapChoices
              ⟨swapMismatchMap.userSwapChoices, swapMismatchMap.ensureSuspendToDisk,
                swapMismatchMap.neverCreateSwap⟩) ∧
        st₂.swapChoice
          = pickOne (getSwapChoices
              ⟨swapMismatchMap.userSwapChoices, swapMismatchMap.ensureSuspendToDisk,
                swapMismatchMap.neverCreateSwap⟩)) :=
  ⟨by decide,
    setConfigurationMap_initialSwap_fallback.1 sampleState [] false
      swapMismatchMap (by decide)⟩

set_option maxHeartbeats 1600000 in
/-- Claim C10: `setConfigurationMap` unconditionally dereferences the
job-queue/global-storage accessor (modelled: it returns `none` — undefined
behaviour in the C++ — exactly when the store is unavailable, and always
succeeds when it exists), whereas `updateGlobalStorage` and
`fillGSSecondaryConfiguration` tolerate the unavailable store by skipping
the publish. -/
theorem setConfigurationMap_requires_store :
    (∀ (st : ConfigState) (efi : Bool) (m : ConfigurationMap),
      setConfigurationMap st none efi m = none) ∧
    (∀ (st : ConfigState) (g : GlobalStorage) (efi : Bool)
        (m : ConfigurationMap),
      (setConfigurationMap st (some g) efi m).isSome = true) ∧
    (∀ (ic : InstallChoice) (sc : SwapChoice),
      updateGlobalStorage ic sc none = none) ∧
    (∀ st : ConfigState, fillGSSecondaryConfiguration st none = none) := by
  refine ⟨?_, ?_, fun ic sc => rfl, fun st => rfl⟩
  · intro st efi m
    unfold setConfigurationMap
    dsimp only
    obtain h₁ | h₁ := setInstallChoiceEnum_none_cases _ _ <;> rw [h₁] <;>
        dsimp only <;>
      (obtain h₂ | h₂ := setSwapChoiceEnum_none_cases _ _ <;> rw [h₂]) <;>
      try rfl
  · intro st g efi m
    unfold setConfigurationMap
    dsimp only
    obtain h₁ | ⟨h₁, -⟩ := setInstallChoiceEnum_some_cases _ _ _ <;> rw [h₁] <;>
        dsimp only <;>
      (obtain h₂ | ⟨h₂, -⟩ := setSwapChoiceEnum_some_cases _ _ _ <;> rw [h₂]) <;>
      try rfl

end Calamares
